import Mathlib

/-!
Shallow embedding of the graph execution engine of the univerejs repository
(file src/base/graph.ts, class Graph), together with theorems settling the
frozen claims about it.

Modelling conventions:
* JavaScript values that can flow into the engine are modelled by the
  inductive JsVal (states) and RawVal (untyped arguments such as the targets
  argument of addParallelEdges).
* An Agent instance is modelled by AgentData: the field id models the object
  reference (JavaScript === on objects), the field serial models the string
  JSON.stringify produces for the object.  The behaviour of agent.invoke is
  supplied to the traversal as an explicit function (RunFn), since the graph
  only consumes the worker contract.
* A conditional edge carries a fnId modelling the function object reference
  (compared by === in areEdgesEqual) next to the Lean function that models
  the behaviour of the edge function; null / undefined returns are modelled
  by Option.none.
* The JavaScript Map with keys compared by SameValueZero (strings by value,
  objects by reference) is modelled by an association list in insertion
  order, with key equality nodeRefEq.
* Exceptions are modelled by Except String; the string is the message of the
  thrown Error.  Template interpolation of a caught Error object prepends
  the text "Error: " exactly as the source template strings do.
* The while loop of invoke increments invocationCount at the top of every
  pass and throws once the count exceeds MAX_INVOCATIONS = 1000; it is
  modelled by structural recursion on fuel = MAX_INVOCATIONS - invocationCount,
  starting at fuel = 1000, with the exhaustion branch returning exactly the
  error ensureMaxInvocations throws on pass 1001.
* console.log / console.warn and the logger (logEdgeTraversal catches every
  logging failure) are observationally irrelevant and are not modelled; the
  visitedNodes set is written but never read by the source and is likewise
  omitted.  The invocation mutex serialises invocations; a single invocation
  is modelled.
-/

namespace Univere

/-- A chat message record, as in the IMessage type of the repository. -/
structure IMessage where
  name : String
  role : String
  content : String
deriving DecidableEq, Repr

/-- Model of an Agent instance: id is the object reference, serial the
string JSON.stringify yields for the object. -/
structure AgentData where
  id : Nat
  name : String
  serial : String
deriving DecidableEq, Repr

/-- A node of the graph: a string (including the sentinels START and END)
or an Agent instance (TWorker | string in the source). -/
inductive Node where
  | str (s : String)
  | agent (a : AgentData)
deriving DecidableEq, Repr

/-- JavaScript values threaded through the engine as state. -/
inductive JsVal where
  | vnull
  | vundef
  | vbool (b : Bool)
  | vnum (n : Int)
  | vstr (s : String)
  | vobj (fields : List (String × JsVal))
  | varr (elems : List JsVal)

/-- Untyped JavaScript values, used for the targets argument of
addParallelEdges, which the source validates dynamically. -/
inductive RawVal where
  | rstr (s : String)
  | ragent (a : AgentData)
  | rnum (n : Int)
  | rbool (b : Bool)
  | rnull
  | rundef
  | robj
  | rarr (xs : List RawVal)

/-- The typeof operator restricted to the values of JsVal. -/
def jsTypeof : JsVal → String
  | .vnull => "object"
  | .vundef => "undefined"
  | .vbool _ => "boolean"
  | .vnum _ => "number"
  | .vstr _ => "string"
  | .vobj _ => "object"
  | .varr _ => "object"

/-- JavaScript truthiness of a JsVal. -/
def jsTruthy : JsVal → Bool
  | .vnull => false
  | .vundef => false
  | .vbool b => b
  | .vnum n => n != 0
  | .vstr s => s != ""
  | .vobj _ => true
  | .varr _ => true

/-- True exactly on null and undefined. -/
def jsIsNullOrUndef : JsVal → Bool
  | .vnull => true
  | .vundef => true
  | _ => false

/-- An edge of the graph (the Edge tagged union of the source); the field
toN models the field named to of the source, a name Lean reserves. -/
inductive Edge where
  | direct (toN : Node)
  | conditional (fnId : Nat) (fn : JsVal → Option Node)
  | parallel (toN : List Node) (next : Option Node)

/-- JavaScript === on nodes: strings by value, Agent objects by reference. -/
def nodeRefEq : Node → Node → Bool
  | .str a, .str b => a == b
  | .agent a, .agent b => a.id == b.id
  | _, _ => false

/-- JavaScript === on the optional next field of a parallel edge
(undefined === undefined is true). -/
def optNodeRefEq : Option Node → Option Node → Bool
  | none, none => true
  | some a, some b => nodeRefEq a b
  | _, _ => false

/-- Escape of one character inside a JSON string literal. -/
def jsonEscapeChar (c : Char) : String :=
  if c = '"' then "\\\""
  else if c = '\\' then "\\\\"
  else if c = '\n' then "\\n"
  else if c = '\t' then "\\t"
  else if c = '\r' then "\\r"
  else String.singleton c

/-- Body of a JSON string literal. -/
def jsonEscape (s : String) : String :=
  String.join (s.toList.map jsonEscapeChar)

/-- JSON.stringify of a single node: strings as JSON string literals, Agent
objects as their serialisation. -/
def jsonStringifyNode : Node → String
  | .str s => "\"" ++ jsonEscape s ++ "\""
  | .agent a => a.serial

/-- JSON.stringify of the target array of a parallel edge. -/
def jsonStringifyNodes (l : List Node) : String :=
  "[" ++ String.intercalate "," (l.map jsonStringifyNode) ++ "]"

/-- The areEdgesEqual method: kind-wise equality used for duplicate
detection (same to for direct, same function reference for conditional,
same JSON of targets and same next for parallel). -/
def areEdgesEqual : Edge → Edge → Bool
  | .direct t1, .direct t2 => nodeRefEq t1 t2
  | .conditional id1 _, .conditional id2 _ => id1 == id2
  | .parallel to1 n1, .parallel to2 n2 =>
      jsonStringifyNodes to1 == jsonStringifyNodes to2 && optNodeRefEq n1 n2
  | _, _ => false

/-- The edge map of a Graph instance, in insertion order. -/
structure GraphM where
  edges : List (Node × List Edge)

/-- The node cap MAX_NODES of the source. -/
def MAX_NODES : Nat := 1000

/-- The per-node edge cap MAX_EDGES_PER_NODE of the source. -/
def MAX_EDGES_PER_NODE : Nat := 100

/-- this.edges.has applied to a node key. -/
def edgesHas (g : GraphM) (n : Node) : Bool :=
  g.edges.any (fun p => nodeRefEq p.1 n)

/-- this.edges.get applied to a node key. -/
def edgesGet (g : GraphM) (n : Node) : Option (List Edge) :=
  (g.edges.find? (fun p => nodeRefEq p.1 n)).map (fun p => p.2)

/-- The nodeExists method: a string node exists when it is a source key or
the literal END; Agent instances always exist. -/
def nodeExists (g : GraphM) (n : Node) : Bool :=
  match n with
  | .str s => edgesHas g (.str s) || s == "END"
  | .agent _ => true

/-- Message of validateNode. -/
def nodeNullMsg : String := "Node cannot be undefined or null."

/-- The validateNode method: rejects exactly null / undefined (modelled by
Option.none). -/
def validateNode (n : Option Node) : Except String Unit :=
  match n with
  | none => .error nodeNullMsg
  | some _ => .ok ()

/-- Message of ensureMaxNodes. -/
def maxNodesMsg : String :=
  "Cannot add more nodes to the graph. Maximum of 1000 nodes reached."

/-- The ensureMaxNodes method. -/
def ensureMaxNodes (g : GraphM) : Except String Unit :=
  if g.edges.length ≥ MAX_NODES then .error maxNodesMsg else .ok ()

/-- The getOrCreateEdges method: creates an empty entry for an absent key
(checking the node cap first) and returns the entry. -/
def getOrCreateEdges (g : GraphM) (n : Node) : Except String (GraphM × List Edge) :=
  if edgesHas g n then
    .ok (g, (edgesGet g n).getD [])
  else
    match ensureMaxNodes g with
    | .error e => .error e
    | .ok _ => .ok (⟨g.edges ++ [(n, [])]⟩, [])

/-- String coercion of a node, as the String(node) interpolations of the
source produce it. -/
def nodeToString : Node → String
  | .str s => s
  | .agent _ => "[object Object]"

/-- Message of ensureMaxEdges for a given source node. -/
def maxEdgesMsg (n : Node) : String :=
  "Cannot add more edges to node \"" ++ nodeToString n ++
    "\". Maximum of 100 edges per node reached."

/-- The ensureMaxEdges method (its getOrCreateEdges call can create the
entry for the key as a side effect). -/
def ensureMaxEdges (g : GraphM) (n : Node) : Except String GraphM :=
  match getOrCreateEdges g n with
  | .error e => .error e
  | .ok (g1, edges) =>
      if edges.length ≥ MAX_EDGES_PER_NODE then .error (maxEdgesMsg n) else .ok g1

/-- The hasEdge method (its getOrCreateEdges call can create the entry). -/
def hasEdge (g : GraphM) (n : Node) (e : Edge) : Except String (GraphM × Bool) :=
  match getOrCreateEdges g n with
  | .error err => .error err
  | .ok (g1, edges) => .ok (g1, edges.any (fun e0 => areEdgesEqual e0 e))

/-- Appending to the array returned by getOrCreateEdges (the push call);
the key is present whenever this is reached. -/
def pushEdge (g : GraphM) (n : Node) (e : Edge) : GraphM :=
  ⟨g.edges.map (fun p => if nodeRefEq p.1 n then (p.1, p.2 ++ [e]) else p)⟩

/-- Message of the duplicate check of addEdge. -/
def dupDirectMsg (f t : Node) : String :=
  "Duplicate direct edge from \"" ++ nodeToString f ++ "\" to \"" ++
    nodeToString t ++ "\" is not allowed."

/-- The addEdge method. -/
def addEdge (g : GraphM) (fromN toN : Option Node) : Except String GraphM :=
  match validateNode fromN with
  | .error e => .error e
  | .ok _ =>
  match validateNode toN with
  | .error e => .error e
  | .ok _ =>
  match ensureMaxNodes g with
  | .error e => .error e
  | .ok _ =>
  match fromN, toN with
  | some f, some t =>
      (match ensureMaxEdges g f with
       | .error e => .error e
       | .ok g1 =>
         match hasEdge g1 f (Edge.direct t) with
         | .error e => .error e
         | .ok (g2, dup) =>
           if dup then .error (dupDirectMsg f t)
           else
             match getOrCreateEdges g2 f with
             | .error e => .error e
             | .ok (g3, _) => .ok (pushEdge g3 f (Edge.direct t)))
  | _, _ => .error nodeNullMsg

/-- Message of the duplicate check of addConditionalEdge. -/
def dupCondMsg (f : Node) : String :=
  "Duplicate conditional edge from \"" ++ nodeToString f ++ "\" is not allowed."

/-- The addConditionalEdge method.  validateFunction never throws here since
the embedded fn argument is a function by typing. -/
def addConditionalEdge (g : GraphM) (fromN : Option Node) (fnId : Nat)
    (fn : JsVal → Option Node) : Except String GraphM :=
  match validateNode fromN with
  | .error e => .error e
  | .ok _ =>
  match fromN with
  | some f =>
      (match hasEdge g f (Edge.conditional fnId fn) with
       | .error e => .error e
       | .ok (g1, dup) =>
         if dup then .error (dupCondMsg f)
         else
           match getOrCreateEdges g1 f with
           | .error e => .error e
           | .ok (g2, _) => .ok (pushEdge g2 f (Edge.conditional fnId fn)))
  | none => .error nodeNullMsg

/-- Validity of one member of the targets array: typeof target === "string"
or target instanceof Agent. -/
def isValidParallelTarget : RawVal → Bool
  | .rstr _ => true
  | .ragent _ => true
  | _ => false

/-- Message of validateParallelTargets. -/
def invalidTargetsMsg (f : Node) : String :=
  "Invalid targets provided for parallel edges from \"" ++ nodeToString f ++
    "\". Targets must be an array of strings or Agent instances."

/-- The validateParallelTargets method: rejects a non-array and any array
with a member that is neither a string nor an Agent instance. -/
def validateParallelTargets (targets : RawVal) (f : Node) : Except String Unit :=
  match targets with
  | .rarr xs =>
      if xs.any (fun t => !isValidParallelTarget t) then .error (invalidTargetsMsg f)
      else .ok ()
  | _ => .error (invalidTargetsMsg f)

/-- The validateNextNode method.  For the embedded argument (a node or
undefined) the instanceof branch never throws, and the second branch only
emits console.warn, so the method never throws here. -/
def validateNextNode (_next : Option Node) (_f : Node) : Except String Unit :=
  .ok ()

/-- Conversion of a validated targets member to a node. -/
def rawToNode : RawVal → Option Node
  | .rstr s => some (.str s)
  | .ragent a => some (.agent a)
  | _ => none

/-- Message of the duplicate check of addParallelEdges. -/
def dupParallelMsg (f : Node) : String :=
  "Duplicate parallel edge from \"" ++ nodeToString f ++ "\" is not allowed."

/-- The target array of a parallel edge as nodes; on a validated array the
filter drops nothing. -/
def targetsToNodes (targets : RawVal) : List Node :=
  match targets with
  | .rarr xs => xs.filterMap rawToNode
  | _ => []

/-- The addParallelEdges method. -/
def addParallelEdges (g : GraphM) (fromN : Option Node) (targets : RawVal)
    (next : Option Node) : Except String GraphM :=
  match validateNode fromN with
  | .error e => .error e
  | .ok _ =>
  match fromN with
  | some f =>
      (match validateParallelTargets targets f with
       | .error e => .error e
       | .ok _ =>
       match validateNextNode next f with
       | .error e => .error e
       | .ok _ =>
       match ensureMaxEdges g f with
       | .error e => .error e
       | .ok g1 =>
         match hasEdge g1 f (Edge.parallel (targetsToNodes targets) next) with
         | .error e => .error e
         | .ok (g2, dup) =>
           if dup then .error (dupParallelMsg f)
           else
             match getOrCreateEdges g2 f with
             | .error e => .error e
             | .ok (g3, _) =>
                 .ok (pushEdge g3 f (Edge.parallel (targetsToNodes targets) next)))
  | none => .error nodeNullMsg

/-! Traversal: the invoke method and its helpers. -/

/-- The result of a single agent invocation as the graph consumes it
(fields state and history of the worker result; an absent state field is
Option.none). -/
structure AgentResult where
  state : Option JsVal
  history : List IMessage

/-- The behaviour of agent.invoke, supplied to the traversal: an error is a
rejected promise with the given message. -/
def RunFn : Type := AgentData → JsVal → String → Except String AgentResult

/-- Message of validateAgentResult for a non-object state field. -/
def invalidAgentStateMsg (a : AgentData) : String :=
  "Agent \"" ++ a.name ++ "\" returned an invalid 'state'. Expected an object."

/-- The validateAgentResult method.  The embedded result is an object and
its history an array by typing, so only the state check can throw. -/
def validateAgentResult (a : AgentData) (r : AgentResult) : Except String Unit :=
  match r.state with
  | some v => if jsTypeof v != "object" then .error (invalidAgentStateMsg a) else .ok ()
  | none => .ok ()

/-- The runAgent method: invokes the agent, validates the shape and wraps
any failure with the name of the agent (template interpolation of a caught
Error prepends the text Error followed by a colon). -/
def runAgent (run : RunFn) (a : AgentData) (state : JsVal) (task : String) :
    Except String AgentResult :=
  match run a state task with
  | .error e => .error ("Error invoking Agent \"" ++ a.name ++ "\": Error: " ++ e)
  | .ok r =>
      match validateAgentResult a r with
      | .error e => .error ("Error invoking Agent \"" ++ a.name ++ "\": Error: " ++ e)
      | .ok _ => .ok r

/-- The value returned by getNextNodeFromEdge when it is non-null: a single
node or the target array of a parallel edge. -/
inductive NextT where
  | one (n : Node)
  | many (ns : List Node)

/-- The getNextNodeFromEdge method.  For a conditional edge the source
calls validateNode on the result of the edge function, so a null or
undefined return throws rather than yielding null. -/
def getNextNodeFromEdge (e : Edge) (state : JsVal) : Except String (Option NextT) :=
  match e with
  | .direct t => .ok (some (.one t))
  | .conditional _ fn =>
      let result := fn state
      match validateNode result with
      | .error err => .error err
      | .ok _ => .ok (result.map NextT.one)
  | .parallel ts _ => .ok (some (.many ts))

/-- The pickNextNode method: first edge whose result is not loosely equal
to null wins; an empty list yields null. -/
def pickNextNode (edges : List Edge) (state : JsVal) : Except String (Option NextT) :=
  match edges with
  | [] => .ok none
  | e :: rest =>
      match getNextNodeFromEdge e state with
      | .error err => .error err
      | .ok (some n) => .ok (some n)
      | .ok none => pickNextNode rest state

/-- JavaScript falsiness of the picked next node (the if statement guarded
by the negation of nextNode in invoke): among possible non-null values only
the empty string is falsy, arrays and Agent objects are truthy. -/
def nextFalsy : NextT → Bool
  | .one (.str s) => s == ""
  | .one (.agent _) => false
  | .many _ => false

/-- Message of validateNextNodePresence and of pickNextNode failure
wrapping. -/
def unknownNodeMsg (n : Node) : String :=
  "Next node \"" ++ nodeToString n ++ "\" does not exist in the graph."

/-- The validateNextNodePresence method: for an array, the forEach throws
at the first member that does not exist. -/
def validateNextNodePresence (g : GraphM) (next : NextT) : Except String Unit :=
  match next with
  | .many ns =>
      match ns.find? (fun n => !nodeExists g n) with
      | some n => .error (unknownNodeMsg n)
      | none => .ok ()
  | .one n => if !nodeExists g n then .error (unknownNodeMsg n) else .ok ()

/-- The invokeParallelAgents method: Promise.all over the targets, string
targets resolving to null; the result array is in target order (Promise.all
preserves input order regardless of settlement timing); a branch rejection
is wrapped by the catch handler. -/
def invokeParallelAgents (run : RunFn) (targets : List Node) (state : JsVal)
    (task : String) : Except String (List (Option AgentResult)) :=
  match targets.mapM (fun t =>
      match t with
      | .str _ => (.ok none : Except String (Option AgentResult))
      | .agent a =>
          match runAgent run a state task with
          | .error e => .error e
          | .ok r => .ok (some r)) with
  | .error e => .error ("Parallel edge invocation failed: Error: " ++ e)
  | .ok rs => .ok rs

/-- Whether an edge is a parallel edge (the find predicate of
handleParallelEdges). -/
def isParallelEdge : Edge → Bool
  | .parallel _ _ => true
  | _ => false

/-- True exactly on the string node END. -/
def isEndStr : Node → Bool
  | .str s => s == "END"
  | .agent _ => false

/-- The expression next-or-END of handleParallelEdges: the or operator also
replaces a falsy next (the empty string) by END. -/
def nextOrEnd : Option Node → Node
  | none => .str "END"
  | some (.str s) => if s == "" then .str "END" else .str s
  | some (.agent a) => .agent a

/-- Message of the post-node existence check of handleParallelEdges. -/
def parallelNextMissingMsg (n : Node) : String :=
  "Next node \"" ++ nodeToString n ++
    "\" specified in parallel edge does not exist in the graph."

/-- The handleParallelEdges method.  The forEach over the settled results
only reassigns the state parameter, a variable local to the method whose
value the caller never reads, and the history append inside it is commented
out in the source; the method returns only the post node. -/
def handleParallelEdges (g : GraphM) (run : RunFn) (nextNodes : List Node)
    (edgeList : List Edge) (state : JsVal) (task : String) : Except String Node :=
  match edgeList.find? isParallelEdge with
  | none => .ok (.str "END")
  | some pe =>
      match invokeParallelAgents run nextNodes state task with
      | .error e => .error e
      | .ok results =>
          let _localState := results.foldl (fun st r =>
            match r with
            | some res =>
                match res.state with
                | some v => if jsTruthy v then v else st
                | none => st
            | none => st) state
          let postNode := match pe with
            | .parallel _ next => nextOrEnd next
            | _ => Node.str "END"
          if !isEndStr postNode && !nodeExists g postNode then
            .error (parallelNextMissingMsg postNode)
          else .ok postNode

/-- The result type of invoke. -/
structure IResult where
  history : List IMessage
  state : JsVal

/-- The invocation-count ceiling MAX_INVOCATIONS of invoke. -/
def MAX_INVOCATIONS : Nat := 1000

/-- Message of ensureMaxInvocations at the ceiling of 1000. -/
def maxInvocationsMsg : String :=
  "Invocation count exceeded the maximum limit of 1000. Possible circular dependency detected."

/-- Wrapping of a pickNextNode failure by invoke. -/
def pickErrMsg (current : Node) (e : String) : String :=
  "Error picking next node from \"" ++ nodeToString current ++ "\": Error: " ++ e

/-- The while loop of invoke.  fuel counts the remaining loop passes before
the invocation counter exceeds MAX_INVOCATIONS: pass number count of the
source runs with fuel = MAX_INVOCATIONS - count + 1, and the pass that
finds count greater than the ceiling is the fuel = 0 case, returning the
error thrown by ensureMaxInvocations. -/
def invokeLoop (g : GraphM) (run : RunFn) (task : String) :
    Nat → JsVal → List IMessage → Node → Except String IResult
  | 0, _, _, _ => .error maxInvocationsMsg
  | fuel + 1, state, hist, current =>
      if isEndStr current then .ok ⟨hist, state⟩
      else
        let stepRes : Except String (JsVal × List IMessage) :=
          match current with
          | .agent a =>
              match runAgent run a state task with
              | .error e => .error e
              | .ok r =>
                  let st := match r.state with
                    | some v => if jsTruthy v then v else state
                    | none => state
                  let h := if r.history.length != 0 then hist ++ r.history else hist
                  .ok (st, h)
          | .str _ => .ok (state, hist)
        match stepRes with
        | .error e => .error e
        | .ok (state, hist) =>
            let edgeList := (edgesGet g current).getD []
            if edgeList.length = 0 then .ok ⟨hist, state⟩
            else
              match pickNextNode edgeList state with
              | .error e => .error (pickErrMsg current e)
              | .ok none => invokeLoop g run task fuel state hist (.str "END")
              | .ok (some nt) =>
                  if nextFalsy nt then invokeLoop g run task fuel state hist (.str "END")
                  else
                    match validateNextNodePresence g nt with
                    | .error e => .error e
                    | .ok _ =>
                        match nt with
                        | .many ns =>
                            match handleParallelEdges g run ns edgeList state task with
                            | .error e => .error e
                            | .ok post => invokeLoop g run task fuel state hist post
                        | .one n => invokeLoop g run task fuel state hist n

/-- The invocation argument of invoke; an absent, null or undefined
startNode is Option.none (replaced by START by the nullish coalescing). -/
structure IGraphInvocation where
  state : JsVal
  task : String
  startNode : Option Node := none

/-- Messages of validateInvocationInputs. -/
def invalidStateMsg : String :=
  "Invalid state provided to Graph.invoke. State must be a non-null object."

/-- Message for an invalid task argument. -/
def invalidTaskMsg : String :=
  "Invalid task provided to Graph.invoke. Task must be a non-empty string."

/-- Message for a start node that does not exist. -/
def startNotExistMsg (n : Node) : String :=
  "Start node \"" ++ nodeToString n ++ "\" does not exist in the graph."

/-- The validateInvocationInputs method.  The null check on startNode never
fires since the nullish coalescing already replaced null and undefined; the
typed task is a string, so only its emptiness can fail the task check. -/
def validateInvocationInputs (g : GraphM) (state : JsVal) (task : String)
    (startNode : Node) : Except String Unit :=
  if jsIsNullOrUndef state || jsTypeof state != "object" then .error invalidStateMsg
  else if task == "" then .error invalidTaskMsg
  else if !nodeExists g startNode then .error (startNotExistMsg startNode)
  else .ok ()

/-- The invoke method (one invocation; the mutex serialises concurrent
calls and is irrelevant to a single one). -/
def invoke (g : GraphM) (run : RunFn) (i : IGraphInvocation) : Except String IResult :=
  let startNode := i.startNode.getD (.str "START")
  match validateInvocationInputs g i.state i.task startNode with
  | .error e => .error e
  | .ok _ => invokeLoop g run i.task MAX_INVOCATIONS i.state [] startNode

/-! Basic lemmas about the edge map and edge equality. -/

theorem nodeRefEq_refl (n : Node) : nodeRefEq n n = true := by
  cases n <;> simp [nodeRefEq]

theorem optNodeRefEq_refl (n : Option Node) : optNodeRefEq n n = true := by
  cases n <;> simp [optNodeRefEq, nodeRefEq_refl]

theorem areEdgesEqual_refl (e : Edge) : areEdgesEqual e e = true := by
  cases e <;> simp [areEdgesEqual, nodeRefEq_refl, optNodeRefEq_refl]

theorem edgesHas_of_get {g : GraphM} {n : Node} {l : List Edge}
    (h : edgesGet g n = some l) : edgesHas g n = true := by
  unfold edgesGet at h
  rcases Option.map_eq_some'.mp h with ⟨p, hp, _⟩
  have hpp := List.find?_some hp
  exact List.any_eq_true.mpr ⟨p, List.mem_of_find?_eq_some hp, hpp⟩

theorem edgesGet_of_has {g : GraphM} {n : Node}
    (h : edgesHas g n = true) : ∃ l, edgesGet g n = some l := by
  rcases List.any_eq_true.mp h with ⟨p, hmem, hp⟩
  unfold edgesGet
  cases hfind : g.edges.find? (fun p => nodeRefEq p.1 n) with
  | none => exact absurd hp (List.find?_eq_none.mp hfind p hmem)
  | some q => exact ⟨q.2, rfl⟩

theorem edgesGet_none_of_not_has {g : GraphM} {n : Node}
    (h : edgesHas g n = false) : edgesGet g n = none := by
  unfold edgesGet
  cases hfind : g.edges.find? (fun p => nodeRefEq p.1 n) with
  | none => rfl
  | some q =>
      have hmem := List.mem_of_find?_eq_some hfind
      have hq := List.find?_some hfind
      have : edgesHas g n = true := List.any_eq_true.mpr ⟨q, hmem, hq⟩
      rw [this] at h
      exact absurd h (by simp)

theorem getOrCreateEdges_has {g : GraphM} {n : Node} (h : edgesHas g n = true) :
    getOrCreateEdges g n = .ok (g, (edgesGet g n).getD []) := by
  unfold getOrCreateEdges
  rw [h]
  simp

theorem find?_append_new (n : Node) :
    ∀ (xs : List (Node × List Edge)), xs.any (fun p => nodeRefEq p.1 n) = false →
      (xs ++ [(n, ([] : List Edge))]).find? (fun p => nodeRefEq p.1 n) = some (n, []) := by
  intro xs h
  induction xs with
  | nil => simp [List.find?, nodeRefEq_refl]
  | cons p rest ih =>
      simp only [List.any_cons, Bool.or_eq_false_iff] at h
      simp only [List.cons_append, List.find?_cons, h.1, cond_false]
      exact ih h.2

theorem edgesGet_append_new {g : GraphM} {n : Node} (h : edgesHas g n = false) :
    edgesGet ⟨g.edges ++ [(n, [])]⟩ n = some [] := by
  unfold edgesGet
  rw [find?_append_new n g.edges h]
  rfl

theorem find?_map_push (n : Node) (e : Edge) :
    ∀ (xs : List (Node × List Edge)) (l : List Edge),
      (xs.find? (fun p => nodeRefEq p.1 n)).map (fun p => p.2) = some l →
      ((xs.map (fun p => if nodeRefEq p.1 n then (p.1, p.2 ++ [e]) else p)).find?
          (fun p => nodeRefEq p.1 n)).map (fun p => p.2) = some (l ++ [e]) := by
  intro xs
  induction xs with
  | nil => intro l h; simp [List.find?] at h
  | cons p rest ih =>
      intro l h
      by_cases hp : nodeRefEq p.1 n = true
      · rw [@List.find?_cons_of_pos _ (fun q => nodeRefEq q.1 n) p rest hp] at h
        simp only [Option.map_some'] at h
        simp only [List.map_cons, if_pos hp]
        rw [@List.find?_cons_of_pos _ (fun q => nodeRefEq q.1 n) (p.1, p.2 ++ [e])
          (rest.map fun q => if nodeRefEq q.1 n = true then (q.1, q.2 ++ [e]) else q) hp]
        simp only [Option.map_some']
        rw [Option.some_inj] at h
        rw [h]
      · rw [@List.find?_cons_of_neg _ (fun q => nodeRefEq q.1 n) p rest hp] at h
        simp only [List.map_cons, if_neg hp]
        rw [@List.find?_cons_of_neg _ (fun q => nodeRefEq q.1 n) p
          (rest.map fun q => if nodeRefEq q.1 n = true then (q.1, q.2 ++ [e]) else q) hp]
        exact ih l h

theorem edgesGet_pushEdge_self {g : GraphM} {n : Node} {l : List Edge} (e : Edge)
    (h : edgesGet g n = some l) :
    edgesGet (pushEdge g n e) n = some (l ++ [e]) := by
  unfold edgesGet pushEdge at *
  exact find?_map_push n e g.edges l h

theorem getOrCreateEdges_ok {g : GraphM} {n : Node} {g1 : GraphM} {l : List Edge}
    (h : getOrCreateEdges g n = .ok (g1, l)) :
    l = (edgesGet g n).getD [] ∧ edgesGet g1 n = some l := by
  unfold getOrCreateEdges at h
  by_cases hhas : edgesHas g n = true
  · rw [hhas] at h
    simp only [if_true, Except.ok.injEq, Prod.mk.injEq] at h
    obtain ⟨hg, hl⟩ := h
    rcases edgesGet_of_has hhas with ⟨l0, hl0⟩
    subst hg
    refine ⟨hl.symm, ?_⟩
    rw [hl0] at hl ⊢
    simp only [Option.getD_some] at hl
    rw [hl]
  · rw [Bool.not_eq_true] at hhas
    rw [hhas] at h
    simp only [Bool.false_eq_true, if_false] at h
    cases hmn : ensureMaxNodes g with
    | error e => rw [hmn] at h; exact absurd h (by simp)
    | ok u =>
        rw [hmn] at h
        simp only [Except.ok.injEq, Prod.mk.injEq] at h
        obtain ⟨hg, hl⟩ := h
        refine ⟨?_, ?_⟩
        · rw [edgesGet_none_of_not_has hhas]
          exact hl.symm
        · rw [← hg, ← hl]
          exact edgesGet_append_new hhas

theorem getOrCreateEdges_of_get {g : GraphM} {n : Node} {l : List Edge}
    (h : edgesGet g n = some l) : getOrCreateEdges g n = .ok (g, l) := by
  rw [getOrCreateEdges_has (edgesHas_of_get h), h]
  rfl

theorem addEdge_ok_get {g : GraphM} {f t : Node} {g' : GraphM}
    (h : addEdge g (some f) (some t) = .ok g') :
    edgesGet g' f = some ((edgesGet g f).getD [] ++ [Edge.direct t]) := by
  unfold addEdge ensureMaxEdges hasEdge at h
  simp only [validateNode] at h
  cases hmn : ensureMaxNodes g with
  | error e => rw [hmn] at h; exact absurd h (by simp)
  | ok u =>
    rw [hmn] at h
    cases hg1 : getOrCreateEdges g f with
    | error e => rw [hg1] at h; exact absurd h (by simp)
    | ok gl =>
      obtain ⟨g1, l1⟩ := gl
      rw [hg1] at h
      obtain ⟨hl1, hget1⟩ := getOrCreateEdges_ok hg1
      simp only [Except.ok.injEq] at h
      by_cases hcap : l1.length ≥ MAX_EDGES_PER_NODE
      · rw [if_pos hcap] at h
        exact absurd h (by simp)
      · rw [if_neg hcap] at h
        simp only [Except.ok.injEq] at h
        rw [getOrCreateEdges_of_get hget1] at h
        simp only [Except.ok.injEq] at h
        by_cases hdup : (l1.any fun e0 => areEdgesEqual e0 (Edge.direct t)) = true
        · rw [if_pos hdup] at h
          exact absurd h (by simp)
        · rw [if_neg hdup] at h
          rw [getOrCreateEdges_of_get hget1] at h
          simp only [Except.ok.injEq] at h
          rw [← h]
          rw [edgesGet_pushEdge_self (Edge.direct t) hget1, hl1]

theorem addEdge_dup {g : GraphM} {f t : Node} {L : List Edge}
    (hget : edgesGet g f = some L)
    (hany : (L.any fun e0 => areEdgesEqual e0 (Edge.direct t)) = true)
    (hnodes : g.edges.length < MAX_NODES)
    (hcap : L.length < MAX_EDGES_PER_NODE) :
    addEdge g (some f) (some t) = .error (dupDirectMsg f t) := by
  unfold addEdge ensureMaxEdges hasEdge
  simp only [validateNode]
  have hmn : ensureMaxNodes g = .ok () := by
    unfold ensureMaxNodes
    rw [if_neg (by omega)]
  rw [hmn]
  simp only [Except.ok.injEq]
  rw [getOrCreateEdges_of_get hget]
  simp only [Except.ok.injEq]
  rw [if_neg (by omega : ¬L.length ≥ MAX_EDGES_PER_NODE)]
  simp only [Except.ok.injEq]
  rw [getOrCreateEdges_of_get hget]
  simp only [Except.ok.injEq]
  rw [if_pos hany]

theorem addConditionalEdge_ok_get {g : GraphM} {f : Node} {fnId : Nat}
    {fn : JsVal → Option Node} {g' : GraphM}
    (h : addConditionalEdge g (some f) fnId fn = .ok g') :
    edgesGet g' f = some ((edgesGet g f).getD [] ++ [Edge.conditional fnId fn]) := by
  unfold addConditionalEdge hasEdge at h
  simp only [validateNode] at h
  cases hg1 : getOrCreateEdges g f with
  | error e => rw [hg1] at h; exact absurd h (by simp)
  | ok gl =>
    obtain ⟨g1, l1⟩ := gl
    rw [hg1] at h
    obtain ⟨hl1, hget1⟩ := getOrCreateEdges_ok hg1
    simp only [Except.ok.injEq] at h
    by_cases hdup : (l1.any fun e0 => areEdgesEqual e0 (Edge.conditional fnId fn)) = true
    · rw [if_pos hdup] at h
      exact absurd h (by simp)
    · rw [if_neg hdup] at h
      rw [getOrCreateEdges_of_get hget1] at h
      simp only [Except.ok.injEq] at h
      rw [← h, edgesGet_pushEdge_self (Edge.conditional fnId fn) hget1, hl1]

theorem addConditionalEdge_dup {g : GraphM} {f : Node} {fnId : Nat}
    {fn : JsVal → Option Node} {L : List Edge}
    (hget : edgesGet g f = some L)
    (hany : (L.any fun e0 => areEdgesEqual e0 (Edge.conditional fnId fn)) = true) :
    addConditionalEdge g (some f) fnId fn = .error (dupCondMsg f) := by
  unfold addConditionalEdge hasEdge
  simp only [validateNode]
  rw [getOrCreateEdges_of_get hget]
  simp only [Except.ok.injEq]
  rw [if_pos hany]

theorem addParallelEdges_ok_get {g : GraphM} {f : Node} {targets : RawVal}
    {next : Option Node} {g' : GraphM}
    (h : addParallelEdges g (some f) targets next = .ok g') :
    validateParallelTargets targets f = .ok () ∧
      edgesGet g' f =
        some ((edgesGet g f).getD [] ++ [Edge.parallel (targetsToNodes targets) next]) := by
  unfold addParallelEdges ensureMaxEdges hasEdge at h
  simp only [validateNode, validateNextNode] at h
  cases hvt : validateParallelTargets targets f with
  | error e => rw [hvt] at h; exact absurd h (by simp)
  | ok u0 =>
    rw [hvt] at h
    refine ⟨rfl, ?_⟩
    cases hg1 : getOrCreateEdges g f with
    | error e => rw [hg1] at h; exact absurd h (by simp)
    | ok gl =>
      obtain ⟨g1, l1⟩ := gl
      rw [hg1] at h
      obtain ⟨hl1, hget1⟩ := getOrCreateEdges_ok hg1
      simp only [Except.ok.injEq] at h
      by_cases hcap : l1.length ≥ MAX_EDGES_PER_NODE
      · rw [if_pos hcap] at h
        exact absurd h (by simp)
      · rw [if_neg hcap] at h
        simp only [Except.ok.injEq] at h
        rw [getOrCreateEdges_of_get hget1] at h
        simp only [Except.ok.injEq] at h
        by_cases hdup :
            (l1.any fun e0 =>
              areEdgesEqual e0 (Edge.parallel (targetsToNodes targets) next)) = true
        · rw [if_pos hdup] at h
          exact absurd h (by simp)
        · rw [if_neg hdup] at h
          rw [getOrCreateEdges_of_get hget1] at h
          simp only [Except.ok.injEq] at h
          rw [← h,
            edgesGet_pushEdge_self (Edge.parallel (targetsToNodes targets) next) hget1, hl1]

theorem addParallelEdges_dup {g : GraphM} {f : Node} {targets : RawVal}
    {next : Option Node} {L : List Edge}
    (hvt : validateParallelTargets targets f = .ok ())
    (hget : edgesGet g f = some L)
    (hany : (L.any fun e0 =>
      areEdgesEqual e0 (Edge.parallel (targetsToNodes targets) next)) = true)
    (hcap : L.length < MAX_EDGES_PER_NODE) :
    addParallelEdges g (some f) targets next = .error (dupParallelMsg f) := by
  unfold addParallelEdges ensureMaxEdges hasEdge
  simp only [validateNode, validateNextNode]
  rw [hvt]
  simp only [Except.ok.injEq]
  rw [getOrCreateEdges_of_get hget]
  simp only [Except.ok.injEq]
  rw [if_neg (by omega : ¬L.length ≥ MAX_EDGES_PER_NODE)]
  simp only [Except.ok.injEq]
  rw [getOrCreateEdges_of_get hget]
  simp only [Except.ok.injEq]
  rw [if_pos hany]

/-! Concrete graphs, agents and worker behaviours used by the claims. -/

/-- A concrete agent used as a parallel branch worker. -/
def agentA : AgentData := ⟨0, "A", "\x7b\"name\":\"A\"\x7d"⟩

/-- A worker behaviour for agentA: returns a fresh state object and emits
one assistant message. -/
def runA : RunFn := fun _ _ _ =>
  .ok ⟨some (.vobj [("seen", .vbool true)]), [⟨"A", "assistant", "ok"⟩]⟩

/-- Graph with a single parallel edge from START to the one branch agentA
and no declared next node. -/
def gParA : GraphM :=
  ⟨[(.str "START", [.parallel [.agent agentA] none])]⟩

/-- A second concrete agent, branch worker of the state-adoption claim. -/
def agentB : AgentData := ⟨1, "B", "\x7b\"name\":\"B\"\x7d"⟩

/-- A worker behaviour for agentB: returns the state with field x set to 1
and emits one message. -/
def runB : RunFn := fun _ _ _ =>
  .ok ⟨some (.vobj [("x", .vnum 1)]), [⟨"B", "assistant", "done"⟩]⟩

/-- Graph with a single parallel edge from START to the one branch agentB. -/
def gParB : GraphM :=
  ⟨[(.str "START", [.parallel [.agent agentB] none])]⟩

/-- Graph whose START node has a conditional edge whose function returns
null for every state, followed by a direct fall-back edge to END. -/
def gCondNull : GraphM :=
  ⟨[(.str "START", [.conditional 0 (fun _ => none), .direct (.str "END")])]⟩

/-- Graph with a conditional self-loop on the empty-string node: the edge
function always returns the source node, the empty string. -/
def gSelfEmpty : GraphM :=
  ⟨[(.str "", [.conditional 0 (fun _ => some (.str ""))])]⟩

/-- Graph whose START conditional edge always returns the empty string,
which was never added as a source key. -/
def gCondEmptyTarget : GraphM :=
  ⟨[(.str "START", [.conditional 0 (fun _ => some (.str ""))])]⟩

/-! Claim theorems. -/

/-- Claim C1 (code bug, evaluation at the failing input).  The claim says a
successful invoke over a parallel edge returns a history containing every
message emitted by every branch.  On the graph with a single parallel
branch agentA, whose behaviour emits exactly one message, invoke succeeds
but returns an empty history: handleParallelEdges never appends the branch
histories (the push statement in the source is commented out). -/
theorem claim_C1_parallel_history_dropped :
    invoke gParA runA ⟨.vobj [], "t", none⟩ = .ok ⟨[], .vobj []⟩ ∧
    runA agentA (.vobj []) "t" =
      .ok ⟨some (.vobj [("seen", .vbool true)]), [⟨"A", "assistant", "ok"⟩]⟩ :=
  ⟨rfl, rfl⟩

/-- Claim C2 (code bug, evaluation at the failing input).  The claim says
the engine adopts the last-resolved branch state after a parallel edge and
uses it for the rest of the traversal and the final result.  On the graph
with a single parallel branch agentB, whose behaviour returns a state with
x set to 1, invoke returns the pre-fan-out state with x still 0: the
forEach in handleParallelEdges reassigns only a variable local to that
method, which invoke never reads back. -/
theorem claim_C2_parallel_state_dropped :
    invoke gParB runB ⟨.vobj [("x", .vnum 0)], "t", none⟩ =
      .ok ⟨[], .vobj [("x", .vnum 0)]⟩ ∧
    runB agentB (.vobj [("x", .vnum 0)]) "t" =
      .ok ⟨some (.vobj [("x", .vnum 1)]), [⟨"B", "assistant", "done"⟩]⟩ :=
  ⟨rfl, rfl⟩

/-- Claim C3 (code bug, evaluation at the failing input).  The claim says a
conditional edge function returning null is treated as no route and falls
through to the next edge in insertion order.  On the graph whose START node
has a null-returning conditional edge followed by a direct edge to END,
invoke does not fall through: getNextNodeFromEdge calls validateNode on the
null result and invoke rejects with the wrapped picking error. -/
theorem claim_C3_conditional_null_throws :
    invoke gCondNull runA ⟨.vobj [], "t", none⟩ =
      .error (pickErrMsg (.str "START") nodeNullMsg) :=
  rfl

/-- Claim C4, counterexample.  The claim says START is always accepted
without being registered as a source key.  On the empty graph, invoke with
startNode START rejects with the start-node existence error, nodeExists is
false on START, and an edge resolving to START fails target validation:
only END is special-cased by nodeExists. -/
theorem counterexample_C4_start_not_special :
    invoke (⟨[]⟩ : GraphM) runA ⟨.vobj [], "t", some (.str "START")⟩ =
      .error (startNotExistMsg (.str "START")) ∧
    nodeExists ⟨[]⟩ (.str "START") = false ∧
    validateNextNodePresence ⟨[]⟩ (.one (.str "START")) =
      .error (unknownNodeMsg (.str "START")) :=
  ⟨rfl, rfl, rfl⟩

/-- Claim C4, amended.  END is always accepted as a valid node without
being registered: for every graph, nodeExists holds of END, an edge
resolving to END passes target validation, and invoke with startNode END
passes the start-node existence check (and immediately succeeds).  START is
accepted exactly when it appears as a source key in the edge map. -/
theorem claim_C4_amended (g : GraphM) (run : RunFn) (state : JsVal) (task : String)
    (hstate : jsIsNullOrUndef state = false ∧ jsTypeof state = "object")
    (htask : task ≠ "") :
    nodeExists g (.str "END") = true ∧
    nodeExists g (.str "START") = edgesHas g (.str "START") ∧
    validateNextNodePresence g (.one (.str "END")) = .ok () ∧
    invoke g run ⟨state, task, some (.str "END")⟩ = .ok ⟨[], state⟩ := by
  have hend : nodeExists g (.str "END") = true := by
    simp [nodeExists]
  refine ⟨hend, by simp [nodeExists], ?_, ?_⟩
  · simp [validateNextNodePresence, hend]
  · have hc1 : (jsIsNullOrUndef state || jsTypeof state != "object") = false := by
      rw [hstate.1, hstate.2]
      rfl
    have hc2 : (task == "") = false := beq_eq_false_iff_ne.mpr htask
    have hval : validateInvocationInputs g state task (.str "END") = .ok () := by
      unfold validateInvocationInputs
      rw [hc1, hc2, hend]
      rfl
    have hinv : invoke g run ⟨state, task, some (.str "END")⟩ =
        (match validateInvocationInputs g state task (.str "END") with
         | Except.error e => Except.error e
         | Except.ok _ => invokeLoop g run task MAX_INVOCATIONS state [] (.str "END")) :=
      rfl
    rw [hinv, hval]
    rfl

/-- Claim C4, witness of the amended theorem at the empty graph. -/
theorem claim_C4_witness :
    nodeExists (⟨[]⟩ : GraphM) (.str "END") = true ∧
    nodeExists (⟨[]⟩ : GraphM) (.str "START") = edgesHas ⟨[]⟩ (.str "START") ∧
    validateNextNodePresence ⟨[]⟩ (.one (.str "END")) = .ok () ∧
    invoke ⟨[]⟩ runA ⟨.vobj [], "t", some (.str "END")⟩ = .ok ⟨[], .vobj []⟩ :=
  claim_C4_amended ⟨[]⟩ runA (.vobj []) "t" ⟨rfl, rfl⟩ (by decide)

/-- Propagation of a targets-validation failure through addParallelEdges:
the validation runs right after the null check on the source node, so its
error is the error of the whole call. -/
theorem addParallelEdges_invalid_targets {g : GraphM} {f : Node} {targets : RawVal}
    {next : Option Node} {m : String}
    (h : validateParallelTargets targets f = .error m) :
    addParallelEdges g (some f) targets next = .error m := by
  unfold addParallelEdges
  simp only [validateNode]
  rw [h]

/-- Claim C5, counterexample.  The claim says addParallelEdges throws on an
empty targets array; on the empty graph with source A it succeeds and
registers a parallel edge with an empty target list, because the some-check
of validateParallelTargets is vacuously false on an empty array. -/
theorem counterexample_C5_empty_targets_accepted :
    addParallelEdges ⟨[]⟩ (some (.str "A")) (.rarr []) none =
      .ok ⟨[(.str "A", [.parallel [] none])]⟩ :=
  rfl

/-- Claim C5, amended.  addParallelEdges throws the invalid-targets error
whenever targets is not an array, or is an array containing a member that
is neither a string nor an Agent instance; an empty array is accepted. -/
theorem claim_C5_amended (g : GraphM) (f : Node) (targets : RawVal)
    (next : Option Node) :
    ((∀ xs, targets ≠ .rarr xs) →
      addParallelEdges g (some f) targets next = .error (invalidTargetsMsg f)) ∧
    (∀ xs, targets = .rarr xs →
      (xs.any fun t => !isValidParallelTarget t) = true →
      addParallelEdges g (some f) targets next = .error (invalidTargetsMsg f)) := by
  constructor
  · intro hna
    apply addParallelEdges_invalid_targets
    cases targets with
    | rarr xs => exact absurd rfl (hna xs)
    | rstr s => rfl
    | ragent a => rfl
    | rnum n => rfl
    | rbool b => rfl
    | rnull => rfl
    | rundef => rfl
    | robj => rfl
  · intro xs hxs hbad
    subst hxs
    apply addParallelEdges_invalid_targets
    simp only [validateParallelTargets]
    rw [if_pos hbad]

/-- Claim C5, witness of the amended theorem: a non-array argument and an
array containing a number both produce the invalid-targets error. -/
theorem claim_C5_witness :
    addParallelEdges ⟨[]⟩ (some (.str "A")) .rnull none =
      .error (invalidTargetsMsg (.str "A")) ∧
    addParallelEdges ⟨[]⟩ (some (.str "A")) (.rarr [.rnum 3]) none =
      .error (invalidTargetsMsg (.str "A")) :=
  ⟨(claim_C5_amended ⟨[]⟩ (.str "A") .rnull none).1 (fun _ h => RawVal.noConfusion h),
   (claim_C5_amended ⟨[]⟩ (.str "A") (.rarr [.rnum 3]) none).2 [.rnum 3] rfl (by decide)⟩

/-- Claim C7 (confirmed).  Duplicate edges are rejected per kind at
construction time: after a successful addEdge, repeating it with the same
from and to throws the duplicate-direct error (provided the caps are not
the reason to throw first); after a successful addConditionalEdge,
repeating it with the same function reference throws the
duplicate-conditional error; after a successful addParallelEdges, repeating
it with the same target array and same next throws the duplicate-parallel
error; and structurally different parallel edges from the same source — a
different target order, or a different next — are both accepted. -/
theorem claim_C7_duplicate_edges :
    (∀ (g : GraphM) (f t : Node) (g' : GraphM),
      addEdge g (some f) (some t) = .ok g' →
      g'.edges.length < MAX_NODES →
      ((edgesGet g' f).getD []).length < MAX_EDGES_PER_NODE →
      addEdge g' (some f) (some t) = .error (dupDirectMsg f t)) ∧
    (∀ (g : GraphM) (f : Node) (fnId : Nat) (fn : JsVal → Option Node) (g' : GraphM),
      addConditionalEdge g (some f) fnId fn = .ok g' →
      addConditionalEdge g' (some f) fnId fn = .error (dupCondMsg f)) ∧
    (∀ (g : GraphM) (f : Node) (targets : RawVal) (next : Option Node) (g' : GraphM),
      addParallelEdges g (some f) targets next = .ok g' →
      ((edgesGet g' f).getD []).length < MAX_EDGES_PER_NODE →
      addParallelEdges g' (some f) targets next = .error (dupParallelMsg f)) ∧
    (addParallelEdges ⟨[]⟩ (some (.str "S")) (.rarr [.rstr "A", .rstr "B"])
        (some (.str "C")) =
      .ok ⟨[(.str "S", [.parallel [.str "A", .str "B"] (some (.str "C"))])]⟩) ∧
    (addParallelEdges ⟨[(.str "S", [.parallel [.str "A", .str "B"] (some (.str "C"))])]⟩
        (some (.str "S")) (.rarr [.rstr "B", .rstr "A"]) (some (.str "C")) =
      .ok ⟨[(.str "S", [.parallel [.str "A", .str "B"] (some (.str "C")),
                        .parallel [.str "B", .str "A"] (some (.str "C"))])]⟩) ∧
    (addParallelEdges ⟨[(.str "S", [.parallel [.str "A", .str "B"] (some (.str "C")),
                                    .parallel [.str "B", .str "A"] (some (.str "C"))])]⟩
        (some (.str "S")) (.rarr [.rstr "A", .rstr "B"]) (some (.str "D")) =
      .ok ⟨[(.str "S", [.parallel [.str "A", .str "B"] (some (.str "C")),
                        .parallel [.str "B", .str "A"] (some (.str "C")),
                        .parallel [.str "A", .str "B"] (some (.str "D"))])]⟩) := by
  refine ⟨?_, ?_, ?_, rfl, rfl, rfl⟩
  · intro g f t g' hok hn hc
    have hget' := addEdge_ok_get hok
    refine addEdge_dup hget' ?_ hn ?_
    · exact List.any_eq_true.mpr
        ⟨Edge.direct t, List.mem_append_right _ (List.mem_singleton_self _),
          areEdgesEqual_refl _⟩
    · rw [hget'] at hc
      simpa using hc
  · intro g f fnId fn g' hok
    have hget' := addConditionalEdge_ok_get hok
    refine addConditionalEdge_dup hget' ?_
    exact List.any_eq_true.mpr
      ⟨Edge.conditional fnId fn, List.mem_append_right _ (List.mem_singleton_self _),
        areEdgesEqual_refl _⟩
  · intro g f targets next g' hok hc
    obtain ⟨hvt, hget'⟩ := addParallelEdges_ok_get hok
    refine addParallelEdges_dup hvt hget' ?_ ?_
    · exact List.any_eq_true.mpr
        ⟨Edge.parallel (targetsToNodes targets) next,
          List.mem_append_right _ (List.mem_singleton_self _), areEdgesEqual_refl _⟩
    · rw [hget'] at hc
      simpa using hc

/-- Claim C7, witness: concrete duplicate rejections of all three kinds. -/
theorem claim_C7_witness :
    addEdge ⟨[(.str "X", [.direct (.str "Y")])]⟩ (some (.str "X")) (some (.str "Y")) =
      .error (dupDirectMsg (.str "X") (.str "Y")) ∧
    addConditionalEdge ⟨[(.str "X", [.conditional 7 (fun _ => some (.str "Y"))])]⟩
        (some (.str "X")) 7 (fun _ => some (.str "Y")) =
      .error (dupCondMsg (.str "X")) ∧
    addParallelEdges ⟨[(.str "X", [.parallel [.str "A"] none])]⟩
        (some (.str "X")) (.rarr [.rstr "A"]) none =
      .error (dupParallelMsg (.str "X")) :=
  ⟨claim_C7_duplicate_edges.1 ⟨[]⟩ (.str "X") (.str "Y")
      ⟨[(.str "X", [.direct (.str "Y")])]⟩ rfl (by decide) (by decide),
   claim_C7_duplicate_edges.2.1 ⟨[]⟩ (.str "X") 7 (fun _ => some (.str "Y"))
      ⟨[(.str "X", [.conditional 7 (fun _ => some (.str "Y"))])]⟩ rfl,
   claim_C7_duplicate_edges.2.2.1 ⟨[]⟩ (.str "X") (.rarr [.rstr "A"]) none
      ⟨[(.str "X", [.parallel [.str "A"] none])]⟩ rfl (by decide)⟩

/-- Success of validateInvocationInputs for a valid state, a non-empty
task and an existing start node. -/
theorem validateInvocationInputs_ok {g : GraphM} {state : JsVal} {task : String}
    {startNode : Node}
    (hstate : jsIsNullOrUndef state = false) (hty : jsTypeof state = "object")
    (htask : task ≠ "") (hex : nodeExists g startNode = true) :
    validateInvocationInputs g state task startNode = .ok () := by
  unfold validateInvocationInputs
  have hc1 : (jsIsNullOrUndef state || jsTypeof state != "object") = false := by
    rw [hstate, hty]
    rfl
  have hc2 : (task == "") = false := beq_eq_false_iff_ne.mpr htask
  rw [hc1, hc2, hex]
  rfl

/-- Unfolding of invoke at an explicitly given start node. -/
theorem invoke_some {g : GraphM} {run : RunFn} {state : JsVal} {task : String}
    {n : Node} :
    invoke g run ⟨state, task, some n⟩ =
      (match validateInvocationInputs g state task n with
       | Except.error e => Except.error e
       | Except.ok _ => invokeLoop g run task MAX_INVOCATIONS state [] n) :=
  rfl

/-- invoke reduces to the loop when the invocation inputs validate. -/
theorem invoke_eq_loop {g : GraphM} {run : RunFn} {state : JsVal} {task : String}
    {n : Node}
    (hstate : jsIsNullOrUndef state = false) (hty : jsTypeof state = "object")
    (htask : task ≠ "") (hex : nodeExists g n = true) :
    invoke g run ⟨state, task, some n⟩ =
      invokeLoop g run task MAX_INVOCATIONS state [] n := by
  rw [invoke_some, validateInvocationInputs_ok hstate hty htask hex]

/-- On a node whose only edge is a conditional that routes back to the
node itself (a non-empty string other than END), every pass of the loop
recurses with unchanged state and history, so the loop exhausts the
invocation budget and returns the circular-dependency error. -/
theorem invokeLoop_self_loop {g : GraphM} {run : RunFn} {task : String}
    {s0 : String} {fnId : Nat} {f : JsVal → Option Node}
    (hedges : edgesGet g (.str s0) = some [.conditional fnId f])
    (hs0end : (s0 == "END") = false) (hs0nil : (s0 == "") = false) :
    ∀ (fuel : Nat) (state : JsVal) (hist : List IMessage),
      f state = some (.str s0) →
      invokeLoop g run task fuel state hist (.str s0) = .error maxInvocationsMsg := by
  have hex : edgesHas g (.str s0) = true := edgesHas_of_get hedges
  intro fuel
  induction fuel with
  | zero => intro state hist _; rfl
  | succ fuel ih =>
      intro state hist hf
      have hpick : pickNextNode [Edge.conditional fnId f] state =
          .ok (some (.one (.str s0))) := by
        simp [pickNextNode, getNextNodeFromEdge, hf, validateNode]
      have hpres : validateNextNodePresence g (.one (.str s0)) = .ok () := by
        simp [validateNextNodePresence, nodeExists, hex]
      simp only [invokeLoop, isEndStr, hs0end, Bool.false_eq_true, if_false,
        hedges, Option.getD_some, List.length_cons, List.length_nil,
        hpick, nextFalsy, hs0nil, hpres]
      simp only [Nat.zero_add, Nat.succ_ne_zero, if_false]
      exact ih state hist hf

/-- Claim C6, counterexample.  The claim quantifies over every conditional
edge that always routes back to its own source node; the self-loop on the
empty-string node is such an edge, yet invoke returns successfully instead
of failing with the circular-dependency error, because the empty string is
falsy and the loop treats it as reaching END. -/
theorem counterexample_C6_empty_string_self_loop :
    invoke gSelfEmpty runA ⟨.vobj [], "t", some (.str "")⟩ = .ok ⟨[], .vobj []⟩ ∧
    invoke gSelfEmpty runA ⟨.vobj [], "t", some (.str "")⟩ ≠
      .error maxInvocationsMsg :=
  ⟨rfl, fun h => Except.noConfusion h⟩

/-- Claim C6, amended.  For every graph whose traversal starts at a node
whose only edge is a conditional always routing back to that same source
node, the source being a non-empty string other than END, invoke fails
with the circular-dependency error once the invocation counter exceeds the
fixed ceiling — and, the embedding being total, never fails to terminate. -/
theorem claim_C6_amended (g : GraphM) (run : RunFn) (state : JsVal) (task : String)
    (s0 : String) (fnId : Nat) (f : JsVal → Option Node)
    (hedges : edgesGet g (.str s0) = some [.conditional fnId f])
    (hf : ∀ st, f st = some (.str s0))
    (hs0 : s0 ≠ "" ∧ s0 ≠ "END")
    (hstate : jsIsNullOrUndef state = false ∧ jsTypeof state = "object")
    (htask : task ≠ "") :
    invoke g run ⟨state, task, some (.str s0)⟩ = .error maxInvocationsMsg := by
  have hex : nodeExists g (.str s0) = true := by
    simp [nodeExists, edgesHas_of_get hedges]
  rw [invoke_eq_loop hstate.1 hstate.2 htask hex]
  exact invokeLoop_self_loop hedges (beq_eq_false_iff_ne.mpr hs0.2)
    (beq_eq_false_iff_ne.mpr hs0.1) MAX_INVOCATIONS state [] (hf state)

/-- Claim C6, witness of the amended theorem on a concrete one-node
self-loop graph. -/
theorem claim_C6_witness :
    invoke ⟨[(.str "A", [.conditional 0 (fun _ => some (.str "A"))])]⟩ runA
      ⟨.vobj [], "t", some (.str "A")⟩ = .error maxInvocationsMsg :=
  claim_C6_amended ⟨[(.str "A", [.conditional 0 (fun _ => some (.str "A"))])]⟩
    runA (.vobj []) "t" "A" 0 (fun _ => some (.str "A")) rfl (fun _ => rfl)
    ⟨by decide, by decide⟩ ⟨rfl, rfl⟩ (by decide)


/-- Claim C8, counterexample.  The claim quantifies over every string other
than START and END that was never added as a source key; the empty string
is such a string, the conditional edge of this graph returns it, yet invoke
succeeds (routing to END) instead of rejecting with the unknown-node error,
because the empty string is falsy and skips the presence check. -/
theorem counterexample_C8_empty_string_skips_check :
    invoke gCondEmptyTarget runA ⟨.vobj [], "t", none⟩ = .ok ⟨[], .vobj []⟩ ∧
    edgesHas gCondEmptyTarget (.str "") = false ∧
    invoke gCondEmptyTarget runA ⟨.vobj [], "t", none⟩ ≠
      .error (unknownNodeMsg (.str "")) :=
  ⟨rfl, rfl, fun h => Except.noConfusion h⟩

/-- One traversal pass whose first edge is a conditional that resolves to
an unregistered, truthy string b rejects with the unknown-node error; the
trailing edges are never consulted because the first non-null result wins. -/
theorem invokeLoop_unknown_next {g : GraphM} {run : RunFn} {task : String}
    {state : JsVal} {hist : List IMessage} {s0 b : String} {fnId : Nat}
    {f : JsVal → Option Node} {rest : List Edge} (fuel : Nat)
    (hedges : edgesGet g (.str s0) = some (.conditional fnId f :: rest))
    (hf : f state = some (.str b))
    (hs0 : (s0 == "END") = false)
    (hbnil : (b == "") = false)
    (hbend : (b == "END") = false)
    (hbhas : edgesHas g (.str b) = false) :
    invokeLoop g run task (fuel + 1) state hist (.str s0) =
      .error (unknownNodeMsg (.str b)) := by
  have hpick : pickNextNode (Edge.conditional fnId f :: rest) state =
      .ok (some (.one (.str b))) := by
    simp [pickNextNode, getNextNodeFromEdge, hf, validateNode]
  have hpres : validateNextNodePresence g (.one (.str b)) =
      .error (unknownNodeMsg (.str b)) := by
    simp [validateNextNodePresence, nodeExists, hbhas, hbend]
  simp only [invokeLoop, isEndStr, hs0, Bool.false_eq_true, if_false, hedges,
    Option.getD_some, List.length_cons, Nat.succ_ne_zero, hpick, nextFalsy,
    hbnil, hpres]

/-- Claim C8, amended.  For every traversal where a conditional edge is the
first edge of the current node (any further edges from the same source are
irrelevant, since the first non-null result wins) and its function returns
a non-empty string b other than END that was never added as a source key,
invoke rejects with the unknown-node error naming b rather than silently
routing to END. -/
theorem claim_C8_amended (g : GraphM) (run : RunFn) (state : JsVal) (task : String)
    (s0 b : String) (fnId : Nat) (f : JsVal → Option Node) (rest : List Edge)
    (hedges : edgesGet g (.str s0) = some (.conditional fnId f :: rest))
    (hf : f state = some (.str b))
    (hs0 : s0 ≠ "END")
    (hb : b ≠ "" ∧ b ≠ "END" ∧ edgesHas g (.str b) = false)
    (hstate : jsIsNullOrUndef state = false ∧ jsTypeof state = "object")
    (htask : task ≠ "") :
    invoke g run ⟨state, task, some (.str s0)⟩ =
      .error (unknownNodeMsg (.str b)) := by
  have hex : nodeExists g (.str s0) = true := by
    simp [nodeExists, edgesHas_of_get hedges]
  rw [invoke_eq_loop hstate.1 hstate.2 htask hex]
  rw [show MAX_INVOCATIONS = 999 + 1 from rfl]
  exact invokeLoop_unknown_next 999 hedges hf (beq_eq_false_iff_ne.mpr hs0)
    (beq_eq_false_iff_ne.mpr hb.1) (beq_eq_false_iff_ne.mpr hb.2.1) hb.2.2

/-- Claim C8, witness of the amended theorem: a conditional edge from START
returning the unregistered string B, with a direct fall-back edge behind
it, makes invoke reject with the unknown-node error. -/
theorem claim_C8_witness :
    invoke ⟨[(.str "START", [.conditional 0 (fun _ => some (.str "B")),
                             .direct (.str "END")])]⟩ runA
      ⟨.vobj [], "t", some (.str "START")⟩ = .error (unknownNodeMsg (.str "B")) :=
  claim_C8_amended ⟨[(.str "START", [.conditional 0 (fun _ => some (.str "B")),
                                     .direct (.str "END")])]⟩
    runA (.vobj []) "t" "START" "B" 0 (fun _ => some (.str "B"))
    [.direct (.str "END")] rfl rfl
    (by decide) ⟨by decide, by decide, rfl⟩ ⟨rfl, rfl⟩ (by decide)

/-- The history append of a loop pass equals plain concatenation whether or
not the appended history is empty. -/
theorem histAppend_eq (hist h : List IMessage) :
    (if h.length != 0 then hist ++ h else hist) = hist ++ h := by
  cases h <;> simp

/-- One traversal pass at an agent with no registered edges: the agent
runs, its object state is adopted, its history is appended, and the loop
stops successfully at the silent dead end. -/
theorem invokeLoop_agent_dead_end {g : GraphM} {run : RunFn} {task : String}
    {state : JsVal} {hist : List IMessage} {a : AgentData}
    {fs : List (String × JsVal)} {hist1 : List IMessage} (fuel : Nat)
    (hrunAgent : runAgent run a state task = .ok ⟨some (.vobj fs), hist1⟩)
    (hnone : edgesGet g (.agent a) = none) :
    invokeLoop g run task (fuel + 1) state hist (.agent a) =
      .ok ⟨hist ++ hist1, .vobj fs⟩ := by
  simp only [invokeLoop, isEndStr, Bool.false_eq_true, if_false, hrunAgent,
    jsTruthy, hnone, Option.getD_none, List.length_nil, histAppend_eq,
    eq_self_iff_true, if_true]

/-- One traversal pass at a string source key with a registered empty edge
list stops successfully at the silent dead end. -/
theorem invokeLoop_empty_edges {g : GraphM} {run : RunFn} {task : String}
    {state : JsVal} {hist : List IMessage} {s0 : String} (fuel : Nat)
    (hemp : edgesGet g (.str s0) = some [])
    (hs0 : (s0 == "END") = false) :
    invokeLoop g run task (fuel + 1) state hist (.str s0) = .ok ⟨hist, state⟩ := by
  simp only [invokeLoop, isEndStr, hs0, Bool.false_eq_true, if_false, hemp,
    Option.getD_some, List.length_nil, eq_self_iff_true, if_true]

/-- Claim C9 (confirmed).  A traversal that reaches a node with no
registered outgoing edges — an agent that is not a source key (whose own
invocation succeeds with an object state), or a string source key with an
empty edge list — makes invoke return successfully with the state and
history accumulated so far, rather than throwing. -/
theorem claim_C9_dead_end :
    (∀ (g : GraphM) (run : RunFn) (state : JsVal) (task : String) (a : AgentData)
        (fs : List (String × JsVal)) (hist1 : List IMessage),
      run a state task = .ok ⟨some (.vobj fs), hist1⟩ →
      edgesGet g (.agent a) = none →
      jsIsNullOrUndef state = false → jsTypeof state = "object" → task ≠ "" →
      invoke g run ⟨state, task, some (.agent a)⟩ = .ok ⟨hist1, .vobj fs⟩) ∧
    (∀ (g : GraphM) (run : RunFn) (state : JsVal) (task : String) (s0 : String),
      edgesGet g (.str s0) = some [] → s0 ≠ "END" →
      jsIsNullOrUndef state = false → jsTypeof state = "object" → task ≠ "" →
      invoke g run ⟨state, task, some (.str s0)⟩ = .ok ⟨[], state⟩) := by
  constructor
  · intro g run state task a fs hist1 hrun hnone h1 h2 h3
    rw [invoke_eq_loop h1 h2 h3 (rfl : nodeExists g (Node.agent a) = true)]
    have hrunAgent : runAgent run a state task = .ok ⟨some (.vobj fs), hist1⟩ := by
      unfold runAgent
      rw [hrun]
      rfl
    rw [show MAX_INVOCATIONS = 999 + 1 from rfl]
    simpa using invokeLoop_agent_dead_end 999 hrunAgent hnone
  · intro g run state task s0 hemp hs0 h1 h2 h3
    have hex : nodeExists g (.str s0) = true := by
      simp [nodeExists, edgesHas_of_get hemp]
    rw [invoke_eq_loop h1 h2 h3 hex]
    rw [show MAX_INVOCATIONS = 999 + 1 from rfl]
    exact invokeLoop_empty_edges 999 hemp (beq_eq_false_iff_ne.mpr hs0)

/-- Claim C9, witness: a traversal starting at the branchless agentA
returns its emitted history and its returned state. -/
theorem claim_C9_witness :
    invoke ⟨[]⟩ runA ⟨.vobj [], "t", some (.agent agentA)⟩ =
      .ok ⟨[⟨"A", "assistant", "ok"⟩], .vobj [("seen", .vbool true)]⟩ :=
  claim_C9_dead_end.1 ⟨[]⟩ runA (.vobj []) "t" agentA [("seen", .vbool true)]
    [⟨"A", "assistant", "ok"⟩] rfl rfl rfl rfl (by decide)

/-- Two traversal passes for a source whose first edge is a direct edge to
the empty string: the falsy target sets the current node to END without a
presence check, and the next pass stops successfully. -/
theorem invokeLoop_empty_target {g : GraphM} {run : RunFn} {task : String}
    {state : JsVal} {hist : List IMessage} {s0 : String} {rest : List Edge}
    (fuel : Nat)
    (hedges : edgesGet g (.str s0) = some (.direct (.str "") :: rest))
    (hs0 : (s0 == "END") = false) :
    invokeLoop g run task (fuel + 1 + 1) state hist (.str s0) =
      .ok ⟨hist, state⟩ := by
  simp only [invokeLoop, isEndStr, hs0, Bool.false_eq_true, if_false, hedges,
    Option.getD_some, List.length_cons, Nat.succ_ne_zero, pickNextNode,
    getNextNodeFromEdge, nextFalsy, beq_self_eq_true, eq_self_iff_true, if_true,
    if_false]

/-- Claim C10 (confirmed).  The empty string is accepted as an edge target
by addEdge (node validation rejects exactly null and undefined), and a
traversal step whose selected edge yields the empty string ends the
traversal as if END had been reached: no unknown-node check runs on the
empty string and no error is raised. -/
theorem claim_C10_empty_string_target :
    validateNode none = .error nodeNullMsg ∧
    (∀ n, validateNode (some n) = .ok ()) ∧
    addEdge ⟨[]⟩ (some (.str "A")) (some (.str "")) =
      .ok ⟨[(.str "A", [.direct (.str "")])]⟩ ∧
    (∀ (g : GraphM) (run : RunFn) (state : JsVal) (task : String) (s0 : String)
        (rest : List Edge),
      edgesGet g (.str s0) = some (.direct (.str "") :: rest) → s0 ≠ "END" →
      jsIsNullOrUndef state = false → jsTypeof state = "object" → task ≠ "" →
      invoke g run ⟨state, task, some (.str s0)⟩ = .ok ⟨[], state⟩) := by
  refine ⟨rfl, fun n => rfl, rfl, ?_⟩
  intro g run state task s0 rest hedges hs0 h1 h2 h3
  have hex : nodeExists g (.str s0) = true := by
    simp [nodeExists, edgesHas_of_get hedges]
  rw [invoke_eq_loop h1 h2 h3 hex]
  rw [show MAX_INVOCATIONS = 998 + 1 + 1 from rfl]
  exact invokeLoop_empty_target 998 hedges (beq_eq_false_iff_ne.mpr hs0)

/-- Claim C10, witness: a direct edge from START to the empty string makes
invoke end successfully as if END had been reached. -/
theorem claim_C10_witness :
    invoke ⟨[(.str "START", [.direct (.str "")])]⟩ runA
      ⟨.vobj [], "t", some (.str "START")⟩ = .ok ⟨[], .vobj []⟩ :=
  claim_C10_empty_string_target.2.2.2 ⟨[(.str "START", [.direct (.str "")])]⟩
    runA (.vobj []) "t" "START" [] rfl (by decide) rfl rfl (by decide)

end Univere
